import Mathlib

/-!
Verification of the python-cryptapi client library.

The development shallowly embeds the library's pure core:
* a model of Python values (strings, integers, dicts) as they occur in the
  gateway's JSON responses and in the helpers' parameter dictionaries;
* the callback-URL codec `prepare_url` from cryptapi/utils.py, including a
  byte-accurate model of urllib.parse.quote with safe set ":/?=&";
* the coin-metadata normalizer `process_supported_coins` from
  cryptapi/utils.py, modelled as a fallible function (Python exceptions
  become `none`);
* the coin-path substitutions, request-URL composition and response/error
  mapping of `CryptAPIHelper.process_request` (cryptapi/CryptAPI.py) and
  `AsyncCryptAPIHelper.process_request` (cryptapi/AsyncCryptAPI.py);
* the constructors and the `get_address` / `get_qrcode` session logic of
  both helper classes.

Strings are modelled as `List Char`; Python dicts as insertion-ordered
association lists with Python's assignment/update/pop semantics.
-/

/-- A Python value as it occurs in the library's dictionaries: a string,
an integer, or a string-keyed dictionary. -/
inductive PyVal where
  | str : List Char → PyVal
  | int : Int → PyVal
  | dict : List (List Char × PyVal) → PyVal

/-- A Python dictionary with string keys. -/
abbrev PyDict := List (List Char × PyVal)

/-- Python dict lookup `d[k]` / `d.get(k)`: first (unique) matching key. -/
def pyGet : PyDict → List Char → Option PyVal
  | [], _ => none
  | (k', v) :: rest, k => if k' = k then some v else pyGet rest k

/-- Python membership test `k in d`. -/
def pyContainsKey (d : PyDict) (k : List Char) : Bool :=
  (pyGet d k).isSome

/-- Python dict assignment `d[k] = v`: replace in place if the key exists,
else append at the end (insertion order). -/
def pySet : PyDict → List Char → PyVal → PyDict
  | [], k, v => [(k, v)]
  | (k', v') :: rest, k, v =>
    if k' = k then (k, v) :: rest else (k', v') :: pySet rest k v

/-- Python `d.pop(k, None)`: remove the entry with key `k`, if present. -/
def pyPop : PyDict → List Char → PyDict
  | [], _ => []
  | (k', v) :: rest, k => if k' = k then rest else (k', v) :: pyPop rest k

/-- Python `d.update(u)`: assign every entry of `u` into `d` in order. -/
def pyUpdate (d : PyDict) (u : PyDict) : PyDict :=
  u.foldl (fun acc kv => pySet acc kv.1 kv.2) d

/-! ### Model of urllib.parse.quote with safe set ":/?=&" -/

/-- UTF-8 encoding of a single character, as a list of byte values. -/
def utf8Bytes (c : Char) : List Nat :=
  let n := c.toNat
  if n < 128 then [n]
  else if n < 2048 then [192 + n / 64, 128 + n % 64]
  else if n < 65536 then [224 + n / 4096, 128 + n / 64 % 64, 128 + n % 64]
  else [240 + n / 262144, 128 + n / 4096 % 64, 128 + n / 64 % 64, 128 + n % 64]

/-- Uppercase hexadecimal digit for a value below 16. -/
def hexDigitUpper (n : Nat) : Char :=
  if n < 10 then Char.ofNat (48 + n) else Char.ofNat (55 + n)

/-- Percent-encoding of one byte: a percent sign and two uppercase hex digits. -/
def percentByte (b : Nat) : List Char :=
  ['%', hexDigitUpper (b / 16), hexDigitUpper (b % 16)]

/-- Percent-encode a byte sequence. -/
def percentEncodeBytes : List Nat → List Char
  | [] => []
  | b :: bs => percentByte b ++ percentEncodeBytes bs

/-- Characters urllib.parse.quote leaves literal when called with
safe=":/?=&": ASCII letters and digits, the always-safe "_.-~", and the
extra safe characters ":/?=&". -/
def quoteSafeChar (c : Char) : Bool :=
  c.isAlpha || c.isDigit || c == '_' || c == '.' || c == '-' || c == '~' ||
    c == ':' || c == '/' || c == '?' || c == '=' || c == '&'

/-- urllib.parse.quote on a single character: safe characters pass through,
everything else is percent-encoded byte by byte (UTF-8). -/
def quoteChar (c : Char) : List Char :=
  if quoteSafeChar c then [c] else percentEncodeBytes (utf8Bytes c)

/-- urllib.parse.quote(s, safe=":/?=&"). -/
def pyQuote : List Char → List Char
  | [] => []
  | c :: s => quoteChar c ++ pyQuote s

/-! ### cryptapi/utils.py -/

/-- Python "&".join. -/
def joinAmp : List (List Char) → List Char
  | [] => []
  | [x] => x
  | x :: xs => x ++ '&' :: joinAmp xs

/-- The function prepare_url from cryptapi/utils.py: if `params` is non-empty, append
`?` (or `&` when the URL already contains `?`) and the `k=v` pairs joined
by `&`; then quote the whole string with safe=":/?=&". -/
def prepare_url (url : List Char) (params : List (List Char × List Char)) :
    List Char :=
  let result_url :=
    if params ≠ [] then
      let separator := if url.contains '?' then ['&'] else ['?']
      let query_params := joinAmp (params.map fun kv => kv.1 ++ '=' :: kv.2)
      url ++ separator ++ query_params
    else url
  pyQuote result_url

/-! ### process_supported_coins (cryptapi/utils.py)

The function is modelled as returning `none` where the Python code raises
(KeyError on a token object without a "coin" entry, AttributeError on a
non-dict entry, TypeError on a non-string coin name in the token branch).
Mutation is made observable: `process_supported_coins_mut` also returns the
final state of the argument dictionary; since the code copies the argument
before popping "fee_tiers", the argument is returned untouched. -/

/-- Inner loop of `process_supported_coins`: for each token of a chain
entry, record `ticker + "_" + token ↦ token_info["coin"] + " (" + TICKER + ")"`.
`none` models the KeyError / TypeError the code raises on a token entry
that is not a dict with a string "coin" field. -/
def tokens_loop (ticker : List Char) :
    List (List Char × PyVal) → PyDict → Option PyDict
  | [], coins => some coins
  | (token, tv) :: rest, coins =>
    match tv with
    | .dict ti =>
      match pyGet ti "coin".data with
      | some (.str c) =>
        tokens_loop ticker rest
          (pySet coins (ticker ++ '_' :: token)
            (.str (c ++ " (".data ++ ticker.map Char.toUpper ++ [')'])))
      | _ => none
    | _ => none

/-- Outer loop of `process_supported_coins`: entries whose value is a dict
with a "coin" key are recorded as-is; other dict entries go through
`tokens_loop`; a non-dict entry raises (AttributeError on `.keys()`). -/
def coins_loop : List (List Char × PyVal) → PyDict → Option PyDict
  | [], coins => some coins
  | (ticker, v) :: rest, coins =>
    match v with
    | .dict ci =>
      match pyGet ci "coin".data with
      | some cv => coins_loop rest (pySet coins ticker cv)
      | none => (tokens_loop ticker ci coins).bind (coins_loop rest)
    | _ => none

/-- The function process_supported_coins with mutation made observable: the second
component is the final state of the argument dict. The code does
`info = info_response.copy()` and then pops "fee_tiers" from the copy, so
the argument itself is never written. -/
def process_supported_coins_mut (info_response : PyDict) :
    Option PyDict × PyDict :=
  let info := info_response
  let info := pyPop info "fee_tiers".data
  (coins_loop info [], info_response)

/-- The function process_supported_coins from cryptapi/utils.py (result only). -/
def process_supported_coins (info_response : PyDict) : Option PyDict :=
  (process_supported_coins_mut info_response).1

/-! ### Coin-path substitutions and request URLs -/

/-- The substitution applied at construction (CryptAPI.py line 69 and
AsyncCryptAPI.py line 82): every "/" becomes "_". -/
def slashToUnderscore (c : Char) : Char := if c = '/' then '_' else c

/-- The substitution coin.replace("/", "_") performed by both constructors. -/
def coin_internal (coin : List Char) : List Char := coin.map slashToUnderscore

/-- The substitution applied when building the URL path: "_" becomes "/". -/
def underscoreToSlash (c : Char) : Char := if c = '_' then '/' else c

/-- The coin-path expansion of `CryptAPIHelper.process_request` (lines
268-270): when the coin contains no "/", every "_" becomes "/". -/
def coin_path_expand (coin : List Char) : List Char :=
  if coin.contains '/' then coin else coin.map underscoreToSlash

/-- Base URL of the gateway, shared by both helpers. -/
def CRYPTAPI_URL : List Char := "https://api.cryptapi.io/".data

/-- Request URL composed by `CryptAPIHelper.process_request`: the expanded
coin segment (with a trailing "/" when the coin is non-empty), the
endpoint, and a trailing "/". -/
def sync_request_url (coin endpoint : List Char) : List Char :=
  let coinSeg := if coin ≠ [] then coin_path_expand coin ++ ['/'] else []
  CRYPTAPI_URL ++ coinSeg ++ endpoint ++ ['/']

/-- Request URL composed by `AsyncCryptAPIHelper.process_request`: "/" is
appended first and then every "_" of the segment is replaced by "/"
(unconditionally, unlike the blocking variant). -/
def async_request_url (coin endpoint : List Char) : List Char :=
  let coinSeg := if coin ≠ [] then (coin ++ ['/']).map underscoreToSlash else []
  CRYPTAPI_URL ++ coinSeg ++ endpoint ++ ['/']

/-! ### Response decoding and error mapping -/

/-- The test response_obj.get("status") == "error": true exactly when the status
field is present and is the string "error". -/
def isErrorStatus : Option PyVal → Bool
  | some (.str s) => s = "error".data
  | _ => false

/-- Failure of a request operation: the CryptAPIException raised on an
error status (carrying `response_obj["error"]`), or the KeyError raised
when the "error" field is absent. -/
inductive RequestError where
  | gatewayError : PyVal → RequestError
  | keyError : RequestError

/-- The response check shared by both `process_request` variants
(CryptAPI.py lines 285-290, AsyncCryptAPI.py lines 271-276): an "error"
status raises CryptAPIException(response_obj["error"]); otherwise the
decoded object is returned unchanged. -/
def check_response (response_obj : PyDict) : Except RequestError PyVal :=
  if isErrorStatus (pyGet response_obj "status".data) then
    match pyGet response_obj "error".data with
    | some e => .error (.gatewayError e)
    | none => .error .keyError
  else .ok (.dict response_obj)

/-- The operation CryptAPIHelper.process_request with the HTTP layer abstracted away:
given the decoded response object, the observable outcome is the request
URL used and the checked result. -/
def process_request_sync (coin endpoint : List Char) (response_obj : PyDict) :
    List Char × Except RequestError PyVal :=
  (sync_request_url coin endpoint, check_response response_obj)

/-- The operation AsyncCryptAPIHelper.process_request, same abstraction. -/
def process_request_async (coin endpoint : List Char) (response_obj : PyDict) :
    List Char × Except RequestError PyVal :=
  (async_request_url coin endpoint, check_response response_obj)

/-! ### The helper sessions -/

/-- The observable state of a helper session (both variants): the
constructor inputs plus the cached payment address. -/
structure Helper where
  coin : List Char
  own_address : List Char
  callback_url : List Char
  parameters : List (List Char × List Char)
  ca_params : PyDict
  payment_Address : PyVal

/-- The configuration error raised by the constructors, in check order:
callback URL first, then coin, then address. -/
inductive ConfigError where
  | callbackMissing : ConfigError
  | coinMissing : ConfigError
  | addressMissing : ConfigError

/-- Constructor CryptAPIHelper.__init__: empty callback URL, coin, or address raises
(no session object is produced); otherwise the coin has "/" replaced by
"_" and the cached payment address starts as the empty string. -/
def CryptAPIHelper.init (coin own_address callback_url : List Char)
    (parameters : List (List Char × List Char)) (ca_params : PyDict) :
    Except ConfigError Helper :=
  if callback_url = [] then .error .callbackMissing
  else if coin = [] then .error .coinMissing
  else if own_address = [] then .error .addressMissing
  else .ok
    { coin := coin_internal coin
      own_address := own_address
      callback_url := callback_url
      parameters := parameters
      ca_params := ca_params
      payment_Address := .str [] }

/-- Constructor AsyncCryptAPIHelper.__init__: identical validation and field setup
(the ssl context and connector are not observable here). -/
def AsyncCryptAPIHelper.init (coin own_address callback_url : List Char)
    (parameters : List (List Char × List Char)) (ca_params : PyDict) :
    Except ConfigError Helper :=
  if callback_url = [] then .error .callbackMissing
  else if coin = [] then .error .coinMissing
  else if own_address = [] then .error .addressMissing
  else .ok
    { coin := coin_internal coin
      own_address := own_address
      callback_url := callback_url
      parameters := parameters
      ca_params := ca_params
      payment_Address := .str [] }

/-- The request composed by `CryptAPIHelper.get_address`: the callback URL
goes through requests.models.PreparedRequest only when the parameter map
is non-empty (and unchanged otherwise); the result is the request URL and
the query-parameter dict. `enc` abstracts the external
requests.models.PreparedRequest.prepare_url encoder. -/
def sync_get_address_request
    (enc : List Char → List (List Char × List Char) → List Char)
    (h : Helper) : List Char × PyDict :=
  let callback_url :=
    if h.parameters ≠ [] then enc h.callback_url h.parameters
    else h.callback_url
  let params : PyDict :=
    [("address".data, .str h.own_address), ("callback".data, .str callback_url)]
  let params := if h.ca_params.isEmpty then params else pyUpdate params h.ca_params
  (sync_request_url h.coin "create".data, params)

/-- The request composed by `AsyncCryptAPIHelper.get_address`: the
callback URL always goes through `prepare_url` (utils.py), even when the
parameter map is empty. -/
def async_get_address_request (h : Helper) : List Char × PyDict :=
  let callback_url := prepare_url h.callback_url h.parameters
  let params : PyDict :=
    [("address".data, .str h.own_address), ("callback".data, .str callback_url)]
  let params := if h.ca_params.isEmpty then params else pyUpdate params h.ca_params
  (async_request_url h.coin "create".data, params)

/-- Response handling of `CryptAPIHelper.get_address` (lines 107-114):
after the response check succeeds, `address_in` (when present) is stored
as the session's cached payment address, and the response object is
returned. -/
def get_address_step (h : Helper) (response_obj : PyDict) :
    Except RequestError (Helper × PyVal) :=
  match check_response response_obj with
  | .error e => .error e
  | .ok v =>
    match pyGet response_obj "address_in".data with
    | some a => .ok ({ h with payment_Address := a }, v)
    | none => .ok (h, v)

/-- Query parameters sent by `CryptAPIHelper.get_qrcode` (lines 156-163):
the cached payment address, the size, and the value only when non-empty.
The session state is read, never written. -/
def get_qrcode_params (h : Helper) (value : List Char) (size : Int) : PyDict :=
  let params : PyDict :=
    [("address".data, h.payment_Address), ("size".data, .int size)]
  if value = [] then params else pySet params "value".data (.str value)

/-! ### Supporting lemmas -/

/-- Every character's code point is below 0x110000. -/
theorem char_toNat_lt (c : Char) : c.toNat < 1114112 := by
  have h := c.valid
  simp [UInt32.isValidChar, Nat.isValidChar] at h
  rcases h with h | ⟨h1, h2⟩ <;> simp [Char.toNat] <;> omega

/-- The output alphabet claimed for the callback codec:
letters, digits, and the characters of ":/?=&%-._~". -/
def allowedChar (c : Char) : Bool :=
  c.isAlpha || c.isDigit || c == ':' || c == '/' || c == '?' || c == '=' ||
    c == '&' || c == '%' || c == '-' || c == '.' || c == '_' || c == '~'

theorem utf8Bytes_lt (c : Char) : ∀ b ∈ utf8Bytes c, b < 256 := by
  have h := char_toNat_lt c
  intro b hb
  simp only [utf8Bytes] at hb
  split at hb <;> [skip; split at hb] <;>
    [skip; skip; split at hb] <;> simp at hb <;> omega

theorem hexDigitUpper_allowed : ∀ n < 16, allowedChar (hexDigitUpper n) = true := by
  decide

theorem percentByte_allowed (b : Nat) (hb : b < 256) :
    (percentByte b).all allowedChar = true := by
  have h1 : b / 16 < 16 := by omega
  have h2 : b % 16 < 16 := by omega
  simp [percentByte, List.all_cons, hexDigitUpper_allowed _ h1,
    hexDigitUpper_allowed _ h2]
  decide

theorem percentEncodeBytes_allowed (bs : List Nat) (h : ∀ b ∈ bs, b < 256) :
    (percentEncodeBytes bs).all allowedChar = true := by
  induction bs with
  | nil => rfl
  | cons b rest ih =>
    simp only [percentEncodeBytes, List.all_append]
    rw [percentByte_allowed b (h b (by simp)),
      ih (fun x hx => h x (by simp [hx]))]
    rfl

theorem quoteSafe_allowed (c : Char) (h : quoteSafeChar c = true) :
    allowedChar c = true := by
  simp [quoteSafeChar] at h
  simp [allowedChar]
  tauto

theorem quoteChar_allowed (c : Char) : (quoteChar c).all allowedChar = true := by
  unfold quoteChar
  split
  · next h => simp [List.all_cons, quoteSafe_allowed c h]
  · exact percentEncodeBytes_allowed _ (utf8Bytes_lt c)

theorem pyQuote_allowed (s : List Char) : (pyQuote s).all allowedChar = true := by
  induction s with
  | nil => rfl
  | cons c rest ih =>
    simp only [pyQuote, List.all_append]
    rw [quoteChar_allowed c, ih]
    rfl

/-- Quoting a string of safe characters is the identity. -/
theorem pyQuote_of_safe (u : List Char) (h : u.all quoteSafeChar = true) :
    pyQuote u = u := by
  induction u with
  | nil => rfl
  | cons c s ih =>
    simp only [List.all_cons, Bool.and_eq_true] at h
    simp [pyQuote, quoteChar, h.1, ih h.2]

/-- The constructor substitution leaves no "/" in the coin. -/
theorem coin_internal_no_slash (C : List Char) :
    (coin_internal C).contains '/' = false := by
  induction C with
  | nil => rfl
  | cons c cs ih =>
    simp only [coin_internal, List.map_cons, List.contains_cons] at ih ⊢
    rw [ih, Bool.or_false]
    by_cases hc : c = '/'
    · simp [slashToUnderscore, hc]
    · rw [slashToUnderscore, if_neg hc, beq_eq_false_iff_ne]
      exact fun h => hc h.symm

/-! ### Claim theorems -/

/-- C7: for every base URL and parameter map, `prepare_url` emits only
characters from [A-Za-z0-9:/?=&%-._~]; everything else in the composed
URL is percent-encoded while ":", "/", "?", "=", "&" stay literal. -/
theorem prepare_url_output_alphabet (url : List Char)
    (params : List (List Char × List Char)) :
    (prepare_url url params).all allowedChar = true :=
  pyQuote_allowed _

/-- C2 fails on the code: with an empty parameter map `prepare_url` still
percent-encodes the base URL, so the base URL "a b" is not returned
character for character. -/
theorem prepare_url_empty_counterexample :
    prepare_url ('a' :: ' ' :: ['b']) [] = "a%20b".data ∧
      "a%20b".data ≠ 'a' :: ' ' :: ['b'] := by decide

/-- C2 amended: with an empty parameter map, `prepare_url` appends no
separator and returns exactly quote(baseURL, safe=":/?=&"); the base URL
is reproduced character for character precisely when all its characters
are quote-safe. -/
theorem prepare_url_empty_params (u : List Char) :
    prepare_url u [] = pyQuote u ∧
      (u.all quoteSafeChar = true → prepare_url u [] = u) :=
  ⟨rfl, fun h => pyQuote_of_safe u h⟩

/-- Witness for C2 amended at a concrete all-safe base URL. -/
theorem prepare_url_empty_params_witness :
    "https://example.com/cb?id=1".data.all quoteSafeChar = true ∧
      prepare_url "https://example.com/cb?id=1".data [] =
        "https://example.com/cb?id=1".data :=
  ⟨by decide, (prepare_url_empty_params "https://example.com/cb?id=1".data).2
    (by decide)⟩

/-- C6 fails on the code: the coin "_/" contains "/", but normalizing and
then expanding yields "//", not "_/" (an original "_" is also expanded). -/
theorem coin_roundtrip_counterexample :
    ('_' :: ['/']).contains '/' = true ∧
      coin_path_expand (coin_internal ('_' :: ['/'])) ≠ '_' :: ['/'] := by
  decide

/-- C6 amended: for every coin string containing "/" but no "_", the
constructor substitution ("/" to "_") followed by the request-path
expansion ("_" to "/") reproduces the coin exactly. -/
theorem coin_roundtrip (C : List Char) (hs : C.contains '/' = true)
    (hu : C.contains '_' = false) :
    coin_path_expand (coin_internal C) = C := by
  rw [coin_path_expand, coin_internal_no_slash C, if_neg (by simp)]
  rw [coin_internal, List.map_map]
  have key : ∀ a ∈ C, (underscoreToSlash ∘ slashToUnderscore) a = id a := by
    intro a ha
    have hau : ¬ a = '_' := by
      intro hcontr
      have : C.contains '_' = true := by
        clear hs hu
        induction C with
        | nil => simp at ha
        | cons c cs ih =>
          rw [List.contains_cons]
          rcases List.mem_cons.mp ha with h | h
          · rw [← h, hcontr]
            simp
          · rw [ih h]
            simp
      rw [this] at hu
      exact Bool.noConfusion hu
    by_cases hsl : a = '/' <;>
      simp [Function.comp, slashToUnderscore, underscoreToSlash, hsl, hau]
  rw [List.map_congr_left key, List.map_id]

/-- Witness for C6 amended at the coin "bep20/usdt". -/
theorem coin_roundtrip_witness :
    coin_path_expand (coin_internal "bep20/usdt".data) = "bep20/usdt".data :=
  coin_roundtrip "bep20/usdt".data (by decide) (by decide)

/-- C1: for every endpoint (and coin), when the decoded response object
has a "status" field equal to "error", both `process_request` variants
fail with CryptAPIException carrying the object's "error" field, and no
result is returned; otherwise the whole decoded object is returned
unchanged. -/
theorem process_request_error_mapping (coin endpoint : List Char)
    (d : PyDict) (e : PyVal) :
    (pyGet d "status".data = some (.str "error".data) →
      pyGet d "error".data = some e →
      (process_request_sync coin endpoint d).2 = .error (.gatewayError e) ∧
        (process_request_async coin endpoint d).2 = .error (.gatewayError e)) ∧
    (isErrorStatus (pyGet d "status".data) = false →
      (process_request_sync coin endpoint d).2 = .ok (.dict d) ∧
        (process_request_async coin endpoint d).2 = .ok (.dict d)) := by
  constructor
  · intro hstatus herr
    have hcheck : check_response d = .error (.gatewayError e) := by
      rw [check_response, hstatus, herr]
      simp [isErrorStatus]
    exact ⟨hcheck, hcheck⟩
  · intro hstatus
    have hcheck : check_response d = .ok (.dict d) := by
      rw [check_response, hstatus]
      simp
    exact ⟨hcheck, hcheck⟩

/-- Witness for C1: the documented error response raises with message
"Invalid address" on the create endpoint, and a success response is
returned unchanged on the logs endpoint. -/
theorem process_request_error_mapping_witness :
    (process_request_sync "btc".data "create".data
        [("status".data, .str "error".data),
         ("error".data, .str "Invalid address".data)]).2 =
      .error (.gatewayError (.str "Invalid address".data)) ∧
    (process_request_async "btc".data "logs".data
        [("status".data, .str "success".data)]).2 =
      .ok (.dict [("status".data, .str "success".data)]) :=
  ⟨((process_request_error_mapping "btc".data "create".data
      [("status".data, .str "error".data),
       ("error".data, .str "Invalid address".data)]
      (.str "Invalid address".data)).1 rfl rfl).1,
   ((process_request_error_mapping "btc".data "logs".data
      [("status".data, .str "success".data)] (.int 0)).2 (by decide)).2⟩

/-- C9: constructing either helper with an empty coin, own address, or
callback URL fails with a configuration error (no session object is
produced, and the model performs no request); with all three non-empty,
construction succeeds and the cached payment address starts as the empty
string. -/
theorem helper_init_validation (coin own_address callback_url : List Char)
    (parameters : List (List Char × List Char)) (ca_params : PyDict) :
    ((coin = [] ∨ own_address = [] ∨ callback_url = []) →
      (∃ e, CryptAPIHelper.init coin own_address callback_url parameters
          ca_params = .error e) ∧
      (∃ e, AsyncCryptAPIHelper.init coin own_address callback_url parameters
          ca_params = .error e)) ∧
    (coin ≠ [] → own_address ≠ [] → callback_url ≠ [] →
      ∃ h, CryptAPIHelper.init coin own_address callback_url parameters
          ca_params = .ok h ∧
        AsyncCryptAPIHelper.init coin own_address callback_url parameters
          ca_params = .ok h ∧
        h.payment_Address = .str [] ∧ h.coin = coin_internal coin) := by
  constructor
  · intro hempty
    rw [CryptAPIHelper.init, AsyncCryptAPIHelper.init]
    by_cases hcb : callback_url = []
    · rw [if_pos hcb]
      exact ⟨⟨.callbackMissing, rfl⟩, ⟨.callbackMissing, rfl⟩⟩
    · rw [if_neg hcb]
      by_cases hc : coin = []
      · rw [if_pos hc]
        exact ⟨⟨.coinMissing, rfl⟩, ⟨.coinMissing, rfl⟩⟩
      · rw [if_neg hc]
        rcases hempty with h | h | h
        · exact absurd h hc
        · rw [if_pos h]
          exact ⟨⟨.addressMissing, rfl⟩, ⟨.addressMissing, rfl⟩⟩
        · exact absurd h hcb
  · intro hc ha hcb
    rw [CryptAPIHelper.init, AsyncCryptAPIHelper.init,
      if_neg hcb, if_neg hc, if_neg ha]
    exact ⟨_, rfl, rfl, rfl, rfl⟩

/-- C8: when `get_address` succeeds on a response carrying "address_in",
that value becomes the session's cached payment address, and the query
parameters of any subsequent `get_qrcode` call on the resulting session
carry exactly that value as "address" (the call itself never writes the
session state in the model). -/
theorem get_address_caches_address (h : Helper) (resp : PyDict) (a : PyVal)
    (value : List Char) (size : Int)
    (hok : isErrorStatus (pyGet resp "status".data) = false)
    (haddr : pyGet resp "address_in".data = some a) :
    ∃ h' v, get_address_step h resp = .ok (h', v) ∧
      h'.payment_Address = a ∧
      pyGet (get_qrcode_params h' value size) "address".data = some a := by
  refine ⟨{ h with payment_Address := a }, .dict resp, ?_, rfl, ?_⟩
  · have hcheck : check_response resp = .ok (.dict resp) := by
      rw [check_response, hok]
      simp
    rw [get_address_step, hcheck, haddr]
  · simp only [get_qrcode_params]
    by_cases hv : value = []
    · rw [if_pos hv]
      rfl
    · rw [if_neg hv]
      rfl

/-- Witness for C8 at a concrete session and response. -/
theorem get_address_caches_address_witness :
    ∃ h' v,
      get_address_step
        ⟨"btc".data, "wallet1".data, "https://cb".data, [], [], .str []⟩
        [("address_in".data, .str "payment1".data),
         ("status".data, .str "success".data)] = .ok (h', v) ∧
      h'.payment_Address = .str "payment1".data ∧
      pyGet (get_qrcode_params h' "0.5".data 300) "address".data =
        some (.str "payment1".data) :=
  get_address_caches_address
    ⟨"btc".data, "wallet1".data, "https://cb".data, [], [], .str []⟩
    [("address_in".data, .str "payment1".data),
     ("status".data, .str "success".data)]
    (.str "payment1".data) "0.5".data 300 (by decide) rfl

/-- A token entry that the normalizer's inner loop accepts: a dict whose
"coin" field is present and is a string. -/
def token_wf : PyVal → Bool
  | .dict ti =>
    match pyGet ti "coin".data with
    | some (.str _) => true
    | _ => false
  | _ => false

/-- A top-level entry that the normalizer accepts: a dict that either has
a "coin" field or consists entirely of accepted token entries. -/
def entry_wf : PyVal → Bool
  | .dict ci =>
    (pyGet ci "coin".data).isSome || ci.all (fun kv => token_wf kv.2)
  | _ => false

theorem tokens_loop_total (ticker : List Char)
    (items : List (List Char × PyVal)) (coins : PyDict)
    (h : items.all (fun kv => token_wf kv.2) = true) :
    (tokens_loop ticker items coins).isSome = true := by
  induction items generalizing coins with
  | nil => rfl
  | cons kv rest ih =>
    obtain ⟨token, tv⟩ := kv
    rw [List.all_cons, Bool.and_eq_true] at h
    obtain ⟨h1, h2⟩ := h
    cases tv with
    | str s => simp [token_wf] at h1
    | int n => simp [token_wf] at h1
    | dict ti =>
      rw [token_wf] at h1
      cases hg : pyGet ti "coin".data with
      | none =>
        rw [hg] at h1
        exact absurd h1 (by simp)
      | some cv =>
        cases cv with
        | str c =>
          rw [tokens_loop, hg]
          exact ih _ h2
        | int n =>
          rw [hg] at h1
          exact absurd h1 (by simp)
        | dict ti2 =>
          rw [hg] at h1
          exact absurd h1 (by simp)

theorem coins_loop_total (items : List (List Char × PyVal)) (coins : PyDict)
    (h : items.all (fun kv => entry_wf kv.2) = true) :
    (coins_loop items coins).isSome = true := by
  induction items generalizing coins with
  | nil => rfl
  | cons kv rest ih =>
    obtain ⟨ticker, v⟩ := kv
    rw [List.all_cons, Bool.and_eq_true] at h
    obtain ⟨h1, h2⟩ := h
    cases v with
    | str s => simp [entry_wf] at h1
    | int n => simp [entry_wf] at h1
    | dict ci =>
      rw [entry_wf, Bool.or_eq_true] at h1
      cases hg : pyGet ci "coin".data with
      | some cv =>
        rw [coins_loop, hg]
        exact ih _ h2
      | none =>
        rcases h1 with h1 | h1
        · rw [hg] at h1
          simp at h1
        · rw [coins_loop, hg]
          obtain ⟨coins', hc⟩ :=
            Option.isSome_iff_exists.mp (tokens_loop_total ticker ci coins h1)
          rw [hc, Option.bind]
          exact ih _ h2

/-- C5 fails on the code: on the input {"a": {"b": {}}} the nested token
object has no "coin" field, and `process_supported_coins` raises a
KeyError (modelled as `none`) instead of skipping the entry. -/
theorem process_supported_coins_total_counterexample :
    process_supported_coins [("a".data, .dict [("b".data, .dict [])])] =
      none := rfl

/-- C5 amended: `process_supported_coins` returns a result without raising
for every input whose entries (apart from a top-level "fee_tiers") are
dicts that either carry a "coin" field or consist of token dicts each
carrying a string "coin" field; entries outside these shapes raise rather
than being skipped. -/
theorem process_supported_coins_total (d : PyDict)
    (h : (pyPop d "fee_tiers".data).all (fun kv => entry_wf kv.2) = true) :
    (process_supported_coins d).isSome = true :=
  coins_loop_total _ _ h

/-- Witness for C5 amended on an input exercising both accepted shapes
plus a "fee_tiers" entry. -/
theorem process_supported_coins_total_witness :
    (process_supported_coins
      [("fee_tiers".data, .int 3),
       ("btc".data, .dict [("coin".data, .str "Bitcoin".data)]),
       ("bep20".data, .dict
         [("usdt".data, .dict [("coin".data, .str "Tether".data)])])]).isSome =
      true :=
  process_supported_coins_total
    [("fee_tiers".data, .int 3),
     ("btc".data, .dict [("coin".data, .str "Bitcoin".data)]),
     ("bep20".data, .dict
       [("usdt".data, .dict [("coin".data, .str "Tether".data)])])]
    (by decide)

/-- C4 fails on the code: on the claimed input with a top-level "tokens"
wrapper, the code treats "tokens" as a chain and "bep20" as a token, looks
up "coin" in {"usdt": ...}, and raises a KeyError (modelled as `none`); in
particular it does not produce {"bep20/usdt": "Tether"}. -/
theorem process_supported_coins_shape_counterexample :
    process_supported_coins
      [("tokens".data, .dict [("bep20".data, .dict
        [("usdt".data, .dict [("coin".data, .str "Tether".data)])])])] =
      none ∧
    (none : Option PyDict) ≠
      some [("bep20/usdt".data, .str "Tether".data)] :=
  ⟨rfl, by simp⟩

/-- C4 amended: for a nested object keyed by chain and then by token
ticker (with no "tokens" wrapper), the normalizer records the key
chain + "_" + token mapped to the token's coin-name with " (CHAIN)"
appended, the chain upper-cased. -/
theorem process_supported_coins_token_entry (chain token name : List Char)
    (hf : chain ≠ "fee_tiers".data) (ht : token ≠ "coin".data) :
    process_supported_coins
      [(chain, .dict [(token, .dict [("coin".data, .str name)])])] =
      some [(chain ++ '_' :: token,
        .str (name ++ " (".data ++ chain.map Char.toUpper ++ [')']))] := by
  simp [process_supported_coins, process_supported_coins_mut, pyPop, hf,
    coins_loop, pyGet, ht, tokens_loop, pySet, Option.bind]

/-- Witness for C4 amended: the chain/token input produces the underscore
key and the suffixed display name. -/
theorem process_supported_coins_token_entry_witness :
    process_supported_coins
      [("bep20".data, .dict
        [("usdt".data, .dict [("coin".data, .str "Tether".data)])])] =
      some [("bep20_usdt".data, .str "Tether (BEP20)".data)] := by
  have h := process_supported_coins_token_entry "bep20".data "usdt".data
    "Tether".data (by decide) (by decide)
  exact h

theorem pyPop_of_not_contains (d : PyDict) (k : List Char)
    (h : pyContainsKey d k = false) : pyPop d k = d := by
  induction d with
  | nil => rfl
  | cons kv rest ih =>
    obtain ⟨k', v'⟩ := kv
    rw [pyContainsKey, pyGet] at h
    by_cases he : k' = k
    · rw [if_pos he] at h
      simp at h
    · rw [if_neg he] at h
      rw [pyPop, if_neg he, ih h]

/-- C10 fails on the code in its second half: on the input
{"fee": {"tiers": {"coin": "X"}}} the composed key "fee" + "_" + "tiers"
equals "fee_tiers", so the output does contain a "fee_tiers" key. -/
theorem process_supported_coins_fee_tiers_counterexample :
    process_supported_coins
      [("fee".data, .dict [("tiers".data, .dict
        [("coin".data, .str "X".data)])])] =
      some [("fee_tiers".data, .str "X (FEE)".data)] ∧
    pyContainsKey [("fee_tiers".data, .str "X (FEE)".data)] "fee_tiers".data =
      true :=
  ⟨rfl, rfl⟩

/-- C10 amended: the normalizer never mutates its argument (the code pops
"fee_tiers" from a copy), and a top-level "fee_tiers" entry is removed
before processing — it never contributes to the result — although a
composed chain_token key may still spell "fee_tiers". -/
theorem process_supported_coins_frame (d : PyDict) (v : PyVal)
    (hf : pyContainsKey d "fee_tiers".data = false) :
    (process_supported_coins_mut d).2 = d ∧
      process_supported_coins (("fee_tiers".data, v) :: d) =
        process_supported_coins d := by
  refine ⟨rfl, ?_⟩
  rw [process_supported_coins, process_supported_coins,
    process_supported_coins_mut, process_supported_coins_mut]
  simp only
  rw [pyPop, if_pos rfl, pyPop_of_not_contains d _ hf]

/-- Witness for C10 amended on a concrete metadata dict. -/
theorem process_supported_coins_frame_witness :
    (process_supported_coins_mut
      [("btc".data, .dict [("coin".data, .str "Bitcoin".data)])]).2 =
      [("btc".data, .dict [("coin".data, .str "Bitcoin".data)])] ∧
    process_supported_coins
      (("fee_tiers".data, .int 7) ::
        [("btc".data, .dict [("coin".data, .str "Bitcoin".data)])]) =
      process_supported_coins
        [("btc".data, .dict [("coin".data, .str "Bitcoin".data)])] :=
  process_supported_coins_frame
    [("btc".data, .dict [("coin".data, .str "Bitcoin".data)])]
    (.int 7) (by decide)

/-- A concrete stand-in for the external
requests.models.PreparedRequest.prepare_url encoder, used to instantiate
statements in which the sync helper never consults the encoder (empty
parameter map). -/
def enc0 : List Char → List (List Char × List Char) → List Char :=
  fun u _ => u

/-- The common shape of the get_address query parameters, as a function of
the callback value actually sent. -/
def addr_params (h : Helper) (cb : List Char) : PyDict :=
  let params : PyDict :=
    [("address".data, .str h.own_address), ("callback".data, .str cb)]
  if h.ca_params.isEmpty then params else pyUpdate params h.ca_params

/-- For coins without "/" (all coins produced by the constructors), both
`process_request` variants compose the same request URL. -/
theorem request_url_agree (coin endpoint : List Char)
    (hc : coin.contains '/' = false) :
    sync_request_url coin endpoint = async_request_url coin endpoint := by
  rw [sync_request_url, async_request_url]
  by_cases h0 : coin = []
  · simp [h0]
  · rw [if_pos h0, if_pos h0, coin_path_expand, hc, if_neg (by simp),
      List.map_append]
    simp [underscoreToSlash]

/-- C3 fails on the code: with identical inputs (empty caller parameter
map, callback URL containing a space), the blocking helper sends the
callback URL verbatim while the suspending helper percent-encodes it, so
the two request parameter dicts differ. -/
theorem sync_async_counterexample :
    (sync_get_address_request enc0
      ⟨"btc".data, "wallet1".data, "https://e.com/a b".data, [], [],
        .str []⟩).2 ≠
    (async_get_address_request
      ⟨"btc".data, "wallet1".data, "https://e.com/a b".data, [], [],
        .str []⟩).2 := by
  intro heq
  have h1 : pyGet (sync_get_address_request enc0
      ⟨"btc".data, "wallet1".data, "https://e.com/a b".data, [], [],
        .str []⟩).2 "callback".data = some (.str "https://e.com/a b".data) :=
    rfl
  have h2 : pyGet (async_get_address_request
      ⟨"btc".data, "wallet1".data, "https://e.com/a b".data, [], [],
        .str []⟩).2 "callback".data =
      some (.str "https://e.com/a%20b".data) := rfl
  rw [heq, h2] at h1
  exact absurd (PyVal.str.inj (Option.some.inj h1)) (by decide)

/-- C3 amended: for identical inputs with an empty caller parameter map
and a coin without "/", both helpers compose the same request URL and the
same query parameters except for the callback value: the blocking helper
sends the callback URL unchanged while the suspending helper sends its
quote(·, safe=":/?=&") encoding; the two requests coincide exactly when
that encoding leaves the callback URL fixed. -/
theorem sync_async_observational
    (enc : List Char → List (List Char × List Char) → List Char)
    (h : Helper) (hp : h.parameters = []) (hc : h.coin.contains '/' = false) :
    (sync_get_address_request enc h).1 = (async_get_address_request h).1 ∧
    (sync_get_address_request enc h).2 = addr_params h h.callback_url ∧
    (async_get_address_request h).2 = addr_params h (pyQuote h.callback_url) ∧
    (pyQuote h.callback_url = h.callback_url →
      sync_get_address_request enc h = async_get_address_request h) := by
  have hurl : (sync_get_address_request enc h).1 =
      (async_get_address_request h).1 :=
    request_url_agree h.coin "create".data hc
  have hsync : (sync_get_address_request enc h).2 =
      addr_params h h.callback_url := by
    simp [sync_get_address_request, addr_params, hp]
  have hasync : (async_get_address_request h).2 =
      addr_params h (pyQuote h.callback_url) := by
    simp [async_get_address_request, addr_params, hp, prepare_url]
  refine ⟨hurl, hsync, hasync, fun hq => ?_⟩
  rw [Prod.ext_iff]
  refine ⟨hurl, ?_⟩
  rw [hsync, hasync, hq]

/-- Witness for C3 amended: with empty caller parameters and an all-safe
callback URL, both helpers compose the identical request. -/
theorem sync_async_observational_witness :
    sync_get_address_request enc0
      ⟨"btc".data, "wallet1".data, "https://e.com/cb".data, [],
        [("pending".data, .int 1)], .str []⟩ =
    async_get_address_request
      ⟨"btc".data, "wallet1".data, "https://e.com/cb".data, [],
        [("pending".data, .int 1)], .str []⟩ :=
  (sync_async_observational enc0
    ⟨"btc".data, "wallet1".data, "https://e.com/cb".data, [],
      [("pending".data, .int 1)], .str []⟩
    rfl (by decide)).2.2.2 (by decide)

/-- Witness for C9: an empty callback URL is rejected, and a fully
specified construction succeeds with an empty cached payment address. -/
theorem helper_init_validation_witness :
    (∃ e, CryptAPIHelper.init "btc".data "wallet1".data [] [] [] = .error e) ∧
    (∃ h, CryptAPIHelper.init "btc".data "wallet1".data "https://cb".data [] []
        = .ok h ∧
      AsyncCryptAPIHelper.init "btc".data "wallet1".data "https://cb".data [] []
        = .ok h ∧
      h.payment_Address = .str [] ∧ h.coin = coin_internal "btc".data) :=
  ⟨((helper_init_validation "btc".data "wallet1".data [] [] []).1
      (Or.inr (Or.inr rfl))).1,
   (helper_init_validation "btc".data "wallet1".data "https://cb".data [] []).2
     (by decide) (by decide) (by decide)⟩
